import Mathlib

/-!
Verification of the recipe-management REST API (Django / DRF application).

Strings from the Python side are modelled as lists of character codes
(`Str := List Nat`), so that the string algorithms of the source
(`str.strip`, `str.rsplit`, `str.lower`, `int(...)`, `str.split(',')`)
can be translated literally and reasoned about by structural induction.
Database rows are Lean structures mirroring the model classes in
`app/core/models.py`; querysets are lists of rows, and the many-to-many
filters of `app/recipe/views.py` are translated with SQL join semantics
(one output row per matching join row, as the ORM produces without
`.distinct()`).
-/

/-- Python strings as lists of character codes. -/
abbrev Str := List Nat

/-- ASCII whitespace character codes, the characters removed by
`str.strip()` (restricted to the ASCII range). -/
def isSpaceCode (c : Nat) : Bool :=
  c = 32 || c = 9 || c = 10 || c = 11 || c = 12 || c = 13

/-- Python `str.strip()`: drop whitespace from both ends. -/
def pyStrip (s : Str) : Str :=
  ((s.dropWhile isSpaceCode).reverse.dropWhile isSpaceCode).reverse

/-- ASCII lowercasing of one character code, as `str.lower()` acts on
the ASCII range: `A`..`Z` (65..90) shift by 32, all else unchanged. -/
def toLowerCode (c : Nat) : Nat :=
  if 65 ≤ c ∧ c ≤ 90 then c + 32 else c

/-- Python `s.rsplit(sep, 1)` when it yields two parts: split at the rightmost
occurrence of `sep`; `none` when `sep` does not occur (the Python call
raises `ValueError`, caught by the caller). -/
def rsplitLast (sep : Nat) : Str → Option (Str × Str)
  | [] => none
  | c :: rest =>
      match rsplitLast sep rest with
      | some (n, d) => some (c :: n, d)
      | none => if c = sep then some ([], rest) else none

/-- Character code of `@`. -/
def atCode : Nat := 64

/-- Django `BaseUserManager.normalize_email`: lowercase the domain part
after the rightmost `@` of the stripped string; if there is no `@` the
input is returned unchanged. -/
def normalize_email (email : Str) : Str :=
  match rsplitLast atCode (pyStrip email) with
  | some (email_name, domain_part) =>
      email_name ++ atCode :: domain_part.map toLowerCode
  | none => email

/-- Python exception values raised or returned by the code under
verification.  `valueError` is Python's built-in `ValueError`;
`validationError` is a framework validation error carrying field-level
messages (field name, message). -/
inductive PyErr where
  | valueError (msg : Str)
  | validationError (errors : List (Str × Str))
  deriving DecidableEq, Repr

/-- A stored user row (`core.models.User`). -/
structure User where
  email : Str
  passwordHash : Str
  name : Str
  is_active : Bool
  is_staff : Bool
  is_superuser : Bool
  deriving DecidableEq, Repr

/-- The user table. -/
structure UserDb where
  users : List User
  deriving DecidableEq, Repr

/-- Password hashing is delegated to the framework (`user.set_password`);
modelled as an injective encoding of the raw password. -/
def hashPassword (p : Str) : Str := 104 :: p

/-- Framework `user.check_password(raw)`: the stored hash matches the raw password. -/
def checkPassword (raw stored : Str) : Bool := stored = hashPassword raw

/-- The message of the `ValueError` in `UserManager.create_user`
(`'Email field cannot be empty'`), abbreviated to its code list. -/
def emptyEmailMsg : Str :=
  [69, 109, 97, 105, 108, 32, 102, 105, 101, 108, 100, 32, 99, 97, 110,
   110, 111, 116, 32, 98, 101, 32, 101, 109, 112, 116, 121]

/-- Source `UserManager.create_user` (`app/core/models.py`): raise `ValueError`
on a falsy (empty) email, otherwise persist a user with the normalized
email and hashed password.  Returns the outcome together with the user
table after the call (unchanged when the exception is raised). -/
def create_user (db : UserDb) (email password : Str) (name : Str) :
    Except PyErr User × UserDb :=
  if email = [] then
    (Except.error (PyErr.valueError emptyEmailMsg), db)
  else
    let u : User :=
      { email := normalize_email email
        passwordHash := hashPassword password
        name := name
        is_active := true
        is_staff := false
        is_superuser := false }
    (Except.ok u, { users := db.users ++ [u] })

/-- Whether `c` is an ASCII uppercase letter code. -/
def isUpperCode (c : Nat) : Bool := 65 ≤ c ∧ c ≤ 90

-- Domain entities of `app/core/models.py` and their table.

/-- A tag row (`core.models.Tag`): a name and an owning user reference. -/
structure Tag where
  id : Int
  user : Nat
  name : Str
  deriving DecidableEq, Repr

/-- An ingredient row (`core.models.Ingredient`). -/
structure Ingredient where
  id : Int
  user : Nat
  name : Str
  deriving DecidableEq, Repr

/-- A recipe row (`core.models.Recipe`) together with its many-to-many
association rows: `tags` and `ingredients` hold ids of associated rows
(each association stored once, as the ORM join table enforces).  Prices
are fixed-point with two decimals, held as an integer count of
hundredths.  The `image` field is referenced by the views and the tests
but is absent from `src/app/core/models.py`; modelled from the spec as
an optional stored path. -/
structure Recipe where
  id : Int
  user : Nat
  title : Str
  time_minutes : Int
  price : Int
  link : Str
  tags : List Int
  ingredients : List Int
  image : Option Str
  deriving DecidableEq, Repr

/-- The relational database backing the three recipe resources. -/
structure Db where
  tags : List Tag
  ingredients : List Ingredient
  recipes : List Recipe
  deriving DecidableEq, Repr

/-- Strict lexicographic order on code lists, as SQL compares varchars. -/
def lexLt : Str → Str → Bool
  | [], [] => false
  | [], _ :: _ => true
  | _ :: _, [] => false
  | a :: as, b :: bs =>
      if a < b then true else if b < a then false else lexLt as bs

/-- Insertion step of the descending sort behind `order_by('-name')`. -/
def insertDescBy {α : Type} (f : α → Str) (x : α) : List α → List α
  | [] => [x]
  | y :: ys => if lexLt (f x) (f y) then y :: insertDescBy f x ys else x :: y :: ys

/-- SQL `ORDER BY name DESC` over a list of rows, keyed by `f`. -/
def sortDescBy {α : Type} (f : α → Str) : List α → List α
  | [] => []
  | x :: xs => insertDescBy f x (sortDescBy f xs)

/-- Source `BaseRecipeViewSet.get_queryset` (`app/recipe/views.py`) for
the tag resource: filter rows to the authenticated user and order by
name descending.  The method reads nothing from the request query
parameters, so the `assigned_only` parameter is accepted here but
ignored, exactly as the source does. -/
def tag_get_queryset (db : Db) (user : Nat) (_assigned_only : Option Str) : List Tag :=
  sortDescBy Tag.name (db.tags.filter (fun t => decide (t.user = user)))

/-- Source `BaseRecipeViewSet.get_queryset` for the ingredient resource;
see `tag_get_queryset`. -/
def ingredient_get_queryset (db : Db) (user : Nat) (_assigned_only : Option Str) :
    List Ingredient :=
  sortDescBy Ingredient.name (db.ingredients.filter (fun i => decide (i.user = user)))

/-- Whether `c` is an ASCII digit code. -/
def isDigitCode (c : Nat) : Bool := 48 ≤ c ∧ c ≤ 57

/-- Numeric value of a digit string. -/
def digitsVal (s : Str) : Nat := s.foldl (fun acc c => acc * 10 + (c - 48)) 0

/-- Message of Python's `int()` `ValueError` (`'invalid literal'`,
abbreviated). -/
def invalidLiteralMsg : Str :=
  [105, 110, 118, 97, 108, 105, 100, 32, 108, 105, 116, 101, 114, 97, 108]

/-- Digit-run acceptance inside `int()`: a non-empty all-digit string. -/
def pyIntCore (t : Str) : Except PyErr Int :=
  if t ≠ [] ∧ t.all isDigitCode then Except.ok (digitsVal t)
  else Except.error (PyErr.valueError invalidLiteralMsg)

/-- Python `int(s)`: strip whitespace, allow one sign, then require a
non-empty digit run; anything else raises `ValueError` (digit grouping
with underscores is not modelled). -/
def pyInt (s : Str) : Except PyErr Int :=
  match pyStrip s with
  | 43 :: rest => pyIntCore rest
  | 45 :: rest => (pyIntCore rest).map (fun v => -v)
  | rest => pyIntCore rest

/-- Python `s.split(sep)`: empty input yields one empty part, and every
separator opens a new part. -/
def pySplit (sep : Nat) : Str → List Str
  | [] => [[]]
  | c :: rest =>
      if c = sep then [] :: pySplit sep rest
      else
        match pySplit sep rest with
        | h :: t => (c :: h) :: t
        | [] => [c] :: []

/-- Source `RecipeViewSet._params_to_int`: split the query string on
commas and convert each part with `int(...)`; a malformed part raises
`ValueError` out of the list comprehension. -/
def _params_to_int (queryset : Str) : Except PyErr (List Int) :=
  (pySplit 44 queryset).mapM pyInt

/-- Python truthiness of `request.query_params.get(...)`: `None` and the
empty string are falsy. -/
def truthy : Option Str → Bool
  | some s => decide (s ≠ [])
  | none => false

/-- The ORM filter `tags__id__in=tag_ids` with SQL join semantics: one
output row per matching association row (no `.distinct()` in the
source), so a recipe matching several listed ids appears several
times. -/
def filterTagsIn (rs : List Recipe) (ids : List Int) : List Recipe :=
  rs.flatMap (fun r => (r.tags.filter (fun tid => decide (tid ∈ ids))).map (fun _ => r))

/-- The ORM filter `ingredients__id__in=ingredient_ids`; see
`filterTagsIn`. -/
def filterIngredientsIn (rs : List Recipe) (ids : List Int) : List Recipe :=
  rs.flatMap (fun r => (r.ingredients.filter (fun iid => decide (iid ∈ ids))).map (fun _ => r))

/-- Source `RecipeViewSet.get_queryset` (`app/recipe/views.py`): apply
the optional `tags` filter, then the optional `ingredients` filter, then
restrict to the authenticated user.  The `int` conversions inside
`_params_to_int` can raise, which propagates out of the method. -/
def RecipeViewSet_get_queryset (db : Db) (user : Nat)
    (tags ingredients : Option Str) : Except PyErr (List Recipe) :=
  match (if truthy tags then
          (_params_to_int (tags.getD [])).map (filterTagsIn db.recipes)
         else Except.ok db.recipes) with
  | Except.error e => Except.error e
  | Except.ok q1 =>
      match (if truthy ingredients then
              (_params_to_int (ingredients.getD [])).map (filterIngredientsIn q1)
             else Except.ok q1) with
      | Except.error e => Except.error e
      | Except.ok q2 => Except.ok (q2.filter (fun r => decide (r.user = user)))

/-- An HTTP response: status code and body. -/
structure HttpResponse (α : Type) where
  status : Nat
  body : α
  deriving DecidableEq, Repr

/-- The recipe list endpoint: 200 with the queryset on success; an
uncaught `ValueError` escaping `get_queryset` is reported by the
framework as a 500 server error, not a field-level validation
response. -/
def recipe_list (db : Db) (user : Nat) (tags ingredients : Option Str) :
    HttpResponse (List Recipe) :=
  match RecipeViewSet_get_queryset db user tags ingredients with
  | Except.ok rs => { status := 200, body := rs }
  | Except.error _ => { status := 500, body := [] }

/-- An update payload for the recipe serializer: present fields carry a
value, omitted fields are `none`. -/
structure RecipePayload where
  title : Option Str
  time_minutes : Option Int
  price : Option Int
  link : Option Str
  tags : Option (List Int)
  ingredients : Option (List Int)
  deriving DecidableEq, Repr

/-- Message of a missing-required-field error (`'required'`). -/
def requiredMsg : Str := [114, 101, 113, 117, 105, 114, 101, 100]

/-- Modelled from the spec: `recipe/serializers.py` is code of this
repository missing from `src/` (only its importers in `views.py` and the
tests are present).  Full update (PUT): "requires title/duration/price
and treats omitted many-to-many fields as set to empty (clears the
association, does not preserve prior values)"; other omitted optional
fields keep their stored values. -/
def recipe_update_full (r : Recipe) (p : RecipePayload) : Except PyErr Recipe :=
  match p.title, p.time_minutes, p.price with
  | some t, some m, some pr =>
      Except.ok { r with
        title := t
        time_minutes := m
        price := pr
        link := p.link.getD r.link
        tags := p.tags.getD []
        ingredients := p.ingredients.getD [] }
  | _, _, _ =>
      Except.error (PyErr.validationError [([116, 105, 116, 108, 101], requiredMsg)])

/-- Modelled from the spec: partial update (PATCH) through the same
missing serializer "preserves omitted fields". -/
def recipe_update_patch (r : Recipe) (p : RecipePayload) : Recipe :=
  { r with
    title := p.title.getD r.title
    time_minutes := p.time_minutes.getD r.time_minutes
    price := p.price.getD r.price
    link := p.link.getD r.link
    tags := p.tags.getD r.tags
    ingredients := p.ingredients.getD r.ingredients }

/-- An uploaded file, as the image serializer classifies it: either a
decodable image with its original extension, or not an image. -/
inductive UploadPayload where
  | imageFile (ext : Str) (data : Str)
  | nonImage (data : Str)
  deriving DecidableEq, Repr

/-- Modelled from the spec: `get_recipe_image_file_path` is referenced by
`core/tests/test_model.py` but absent from `src/app/core/models.py`; the
spec stores the image "under a path derived from a freshly generated
unique identifier plus the original extension"
(`uploads/recipe/<uuid><ext>`). -/
def get_recipe_image_file_path (uuid ext : Str) : Str :=
  [117, 112, 108, 111, 97, 100, 115, 47, 114, 101, 99, 105, 112, 101, 47] ++ uuid ++ ext

/-- Source `RecipeViewSet.upload_image` (`app/recipe/views.py`), with the
image serializer modelled from the spec ("validates the uploaded file is
a decodable image"; `recipe/serializers.py` is missing from `src/`):
`get_object` resolves the recipe through the user-scoped queryset (404
when absent or owned by another user); a valid image is saved under the
generated path and answered with 200 and the updated representation;
otherwise the serializer errors are answered with 400 and nothing is
saved. -/
def upload_image (db : Db) (user : Nat) (pk : Int) (payload : UploadPayload)
    (uuid : Str) : HttpResponse (Option Recipe) × Db :=
  match db.recipes.find? (fun r => decide (r.id = pk ∧ r.user = user)) with
  | none => ({ status := 404, body := none }, db)
  | some recipe =>
      match payload with
      | UploadPayload.imageFile ext _ =>
          let updated :=
            { recipe with image := some (get_recipe_image_file_path uuid ext) }
          ({ status := 200, body := some updated },
           { db with recipes :=
              db.recipes.map (fun r => if r.id = pk ∧ r.user = user then updated else r) })
      | UploadPayload.nonImage _ => ({ status := 400, body := none }, db)

/-- Field name `email`. -/
def emailField : Str := [101, 109, 97, 105, 108]

/-- Field name `password`. -/
def passwordField : Str := [112, 97, 115, 115, 119, 111, 114, 100]

/-- DRF's `non_field_errors` key. -/
def nonFieldErrors : Str :=
  [110, 111, 110, 95, 102, 105, 101, 108, 100, 95, 101, 114, 114, 111, 114, 115]

/-- DRF's blank-field message (`'This field may not be blank.'`,
abbreviated to `'blank'`). -/
def blankMsg : Str := [98, 108, 97, 110, 107]

/-- The fixed authentication failure message of
`AuthTokenSerializer.validate` (`'Unable to authenticate with the given
credentials.'`, abbreviated to its first words). -/
def authFailMsg : Str :=
  [85, 110, 97, 98, 108, 101, 32, 116, 111, 32, 97, 117, 116, 104, 101,
   110, 116, 105, 99, 97, 116, 101]

/-- Django `authenticate` (ModelBackend): look the user up by the login
field (email), check the password, reject inactive accounts. -/
def authenticate (db : UserDb) (email password : Str) : Option User :=
  (db.users.find? (fun u => decide (u.email = email))).bind
    (fun u => if checkPassword password u.passwordHash && u.is_active then some u else none)

/-- Source `AuthTokenSerializer.validate` (`app/user/serializer.py`)
together with the DRF `CharField` validation that runs before it: a
blank email or password fails field validation (`allow_blank` defaults
to false) with a field-level blank error; otherwise `authenticate` is
consulted and failure raises the single fixed non-field authentication
error, never saying which credential was wrong. -/
def issue_token (db : UserDb) (email password : Str) :
    Except (List (Str × Str)) User :=
  let fieldErrors :=
    (if email = [] then [(emailField, blankMsg)] else []) ++
    (if password = [] then [(passwordField, blankMsg)] else [])
  if fieldErrors ≠ [] then Except.error fieldErrors
  else
    match authenticate db email password with
    | some u => Except.ok u
    | none => Except.error [(nonFieldErrors, authFailMsg)]

/-- The `min_length` of the password in `UserSerializer.Meta.extra_kwargs`. -/
def password_min_length : Nat := 8

/-- Source `UserSerializer` (`app/user/serializer.py`) validation: model
serializer over (email, password, name) with password write-only and
`min_length` 8.  Framework field validation: email required, at most 255
characters, syntactically an email (the framework regex abbreviated here
to requiring an `@`), unique among stored users; password at least 8
characters; name required. -/
def UserSerializer_is_valid (db : UserDb) (email password name : Str) : Bool :=
  decide (email ≠ []) && decide (email.length ≤ 255) && decide (atCode ∈ email) &&
  db.users.all (fun u => decide (u.email ≠ email)) &&
  decide (password_min_length ≤ password.length) && decide (name ≠ [])

/-- The public create-user endpoint (`/user/create/`): 400 when the
serializer rejects the payload (nothing written), otherwise the record
is created via `UserManager.create_user` and answered with 201. -/
def user_create_api (db : UserDb) (email password name : Str) :
    HttpResponse (Option User) × UserDb :=
  if UserSerializer_is_valid db email password name then
    match create_user db email password name with
    | (Except.ok u, db2) => ({ status := 201, body := some u }, db2)
    | (Except.error _, db2) => ({ status := 400, body := none }, db2)
  else ({ status := 400, body := none }, db)

-- Concrete fixtures used by counterexamples and witnesses.

/-- Fixture tag `tag1` owned by user 1, assigned to the fixture recipe. -/
def tag1C2 : Tag := { id := 1, user := 1, name := [116, 97, 103, 49] }

/-- Fixture tag `tag2` owned by user 1, assigned to no recipe. -/
def tag2C2 : Tag := { id := 2, user := 1, name := [116, 97, 103, 50] }

/-- Fixture recipe for the `assigned_only` scenario: only tag 1 assigned. -/
def recipeC2 : Recipe :=
  { id := 1, user := 1, title := [114, 49], time_minutes := 23, price := 3300,
    link := [], tags := [1], ingredients := [], image := none }

/-- Fixture database for the `assigned_only` scenario. -/
def dbC2 : Db := { tags := [tag1C2, tag2C2], ingredients := [], recipes := [recipeC2] }

/-- Fixture recipe carrying both tag 1 and tag 2. -/
def recipeC3 : Recipe :=
  { id := 1, user := 1, title := [114, 49], time_minutes := 5, price := 1284,
    link := [], tags := [1, 2], ingredients := [], image := none }

/-- Fixture database for the tags-filter scenario. -/
def dbC3 : Db := { tags := [], ingredients := [], recipes := [recipeC3] }

/-- Fixture registered active user (email `a@x`, password `pw`). -/
def userC7 : User :=
  { email := [97, 64, 120], passwordHash := hashPassword [112, 119], name := [],
    is_active := true, is_staff := false, is_superuser := false }

/-- Fixture user table holding only `userC7`. -/
def dbC7 : UserDb := { users := [userC7] }

-- Basic lemmas about the string operations.

theorem toLowerCode_not_upper (c : Nat) : isUpperCode (toLowerCode c) = false := by
  unfold toLowerCode isUpperCode
  by_cases h : 65 ≤ c ∧ c ≤ 90
  · rw [if_pos h]
    rw [decide_eq_false_iff_not]
    omega
  · rw [if_neg h]
    rw [decide_eq_false_iff_not]
    exact h

theorem toLowerCode_idem (c : Nat) : toLowerCode (toLowerCode c) = toLowerCode c := by
  unfold toLowerCode
  by_cases h : 65 ≤ c ∧ c ≤ 90
  · rw [if_pos h, if_neg (by omega : ¬(65 ≤ c + 32 ∧ c + 32 ≤ 90))]
  · rw [if_neg h, if_neg h]

theorem isSpaceCode_eq_false (c : Nat) (h : 33 ≤ c) : isSpaceCode c = false := by
  unfold isSpaceCode
  simp only [Bool.or_eq_false_iff, decide_eq_false_iff_not]
  omega

theorem toLowerCode_space (c : Nat) :
    isSpaceCode (toLowerCode c) = isSpaceCode c := by
  unfold toLowerCode
  by_cases h : 65 ≤ c ∧ c ≤ 90
  · rw [if_pos h, isSpaceCode_eq_false _ (by omega), isSpaceCode_eq_false _ (by omega)]
  · rw [if_neg h]

/-- Lowercasing never produces an `@` out of another character. -/
theorem toLowerCode_eq_at (c : Nat) (h : toLowerCode c = atCode) : c = atCode := by
  unfold toLowerCode atCode at h
  unfold atCode
  by_cases hc : 65 ≤ c ∧ c ≤ 90
  · rw [if_pos hc] at h; omega
  · rwa [if_neg hc] at h

/-- Function `rsplitLast` returns `none` exactly when the separator is absent. -/
theorem rsplitLast_eq_none_iff (sep : Nat) (s : Str) :
    rsplitLast sep s = none ↔ sep ∉ s := by
  induction s with
  | nil => simp [rsplitLast]
  | cons c rest ih =>
      unfold rsplitLast
      cases h : rsplitLast sep rest with
      | some p =>
          simp only [List.mem_cons]
          constructor
          · intro hcontra; cases hcontra
          · intro hnot
            exfalso
            have : sep ∉ rest := fun hm => hnot (Or.inr hm)
            rw [← ih] at this
            rw [h] at this
            cases this
      | none =>
          have hrest : sep ∉ rest := (ih).mp h
          simp only [List.mem_cons]
          by_cases hc : c = sep
          · subst hc; simp
          · rw [if_neg hc]
            constructor
            · intro _ hor
              rcases hor with h1 | h2
              · exact hc h1.symm
              · exact hrest h2
            · intro _; trivial

/-- The separator does not occur in the part after the rightmost split. -/
theorem rsplitLast_sep_not_mem_snd (sep : Nat) (s n d : Str)
    (h : rsplitLast sep s = some (n, d)) : sep ∉ d := by
  induction s generalizing n d with
  | nil => simp [rsplitLast] at h
  | cons c rest ih =>
      unfold rsplitLast at h
      cases hr : rsplitLast sep rest with
      | some p =>
          rw [hr] at h
          obtain ⟨pn, pd⟩ := p
          simp only [Option.some.injEq, Prod.mk.injEq] at h
          obtain ⟨h1, h2⟩ := h
          subst h2
          exact ih _ _ hr
      | none =>
          rw [hr] at h
          by_cases hc : c = sep
          · rw [if_pos hc] at h
            simp only [Option.some.injEq, Prod.mk.injEq] at h
            obtain ⟨h1, h2⟩ := h
            subst h2
            exact (rsplitLast_eq_none_iff sep rest).mp hr
          · rw [if_neg hc] at h
            cases h

/-- Rightmost-split of a string assembled around a separator-free tail. -/
theorem rsplitLast_append (sep : Nat) (n d : Str) (hd : sep ∉ d) :
    rsplitLast sep (n ++ sep :: d) = some (n, d) := by
  induction n with
  | nil =>
      simp only [List.nil_append]
      unfold rsplitLast
      have : rsplitLast sep d = none := (rsplitLast_eq_none_iff sep d).mpr hd
      rw [this, if_pos rfl]
  | cons c rest ih =>
      simp only [List.cons_append]
      unfold rsplitLast
      rw [ih]

-- Lemmas about `pyStrip` and string shape, feeding the idempotence proof.

theorem head?_dropWhile_not_space (l : Str) (c : Nat)
    (h : (l.dropWhile isSpaceCode).head? = some c) : isSpaceCode c = false := by
  induction l with
  | nil => simp [List.dropWhile] at h
  | cons a t ih =>
      rw [List.dropWhile] at h
      cases ha : isSpaceCode a with
      | true =>
          rw [ha] at h
          exact ih h
      | false =>
          rw [ha] at h
          simp only [List.head?_cons, Option.some.injEq] at h
          subst h
          exact ha

theorem getLast?_dropWhile (p : Nat → Bool) (l : Str)
    (h : l.dropWhile p ≠ []) : (l.dropWhile p).getLast? = l.getLast? := by
  induction l with
  | nil => simp [List.dropWhile] at h
  | cons a t ih =>
      rw [List.dropWhile] at h ⊢
      cases ha : p a with
      | true =>
          rw [ha] at h
          have h2 : List.dropWhile p t ≠ [] := h
          have ht : t ≠ [] := by
            intro he
            rw [he] at h2
            simp [List.dropWhile] at h2
          show (List.dropWhile p t).getLast? = (a :: t).getLast?
          rw [ih h2]
          cases t with
          | nil => exact absurd rfl ht
          | cons b u => rw [List.getLast?_cons_cons]
      | false =>
          show (a :: t).getLast? = (a :: t).getLast?
          rfl

/-- A successful rightmost split reconstructs the input string. -/
theorem rsplitLast_eq (sep : Nat) (s n d : Str)
    (h : rsplitLast sep s = some (n, d)) : s = n ++ sep :: d := by
  induction s generalizing n d with
  | nil => simp [rsplitLast] at h
  | cons c rest ih =>
      unfold rsplitLast at h
      cases hr : rsplitLast sep rest with
      | some p =>
          rw [hr] at h
          obtain ⟨pn, pd⟩ := p
          simp only [Option.some.injEq, Prod.mk.injEq] at h
          obtain ⟨h1, h2⟩ := h
          subst h2
          rw [← h1, List.cons_append, ← ih _ _ hr]
      | none =>
          rw [hr] at h
          by_cases hc : c = sep
          · rw [if_pos hc] at h
            simp only [Option.some.injEq, Prod.mk.injEq] at h
            obtain ⟨h1, h2⟩ := h
            subst h1; subst h2; subst hc
            rfl
          · rw [if_neg hc] at h
            cases h

theorem dropWhile_eq_self_of_head (p : Nat → Bool) (l : Str)
    (h : ∀ c, l.head? = some c → p c = false) : l.dropWhile p = l := by
  cases l with
  | nil => rfl
  | cons a t =>
      rw [List.dropWhile, h a rfl]

/-- The first character of a stripped string is not whitespace. -/
theorem pyStrip_head_not_space (s : Str) (c : Nat)
    (h : (pyStrip s).head? = some c) : isSpaceCode c = false := by
  unfold pyStrip at h
  rw [List.head?_reverse] at h
  have hne : ((s.dropWhile isSpaceCode).reverse.dropWhile isSpaceCode) ≠ [] := by
    intro he
    rw [he] at h
    simp at h
  rw [getLast?_dropWhile _ _ hne, List.getLast?_reverse] at h
  exact head?_dropWhile_not_space _ _ h

/-- The last character of a stripped string is not whitespace. -/
theorem pyStrip_getLast_not_space (s : Str) (c : Nat)
    (h : (pyStrip s).getLast? = some c) : isSpaceCode c = false := by
  unfold pyStrip at h
  rw [List.getLast?_reverse] at h
  exact head?_dropWhile_not_space _ _ h

/-- Stripping fixes a string whose two ends are not whitespace. -/
theorem pyStrip_eq_self (s : Str)
    (h1 : ∀ c, s.head? = some c → isSpaceCode c = false)
    (h2 : ∀ c, s.getLast? = some c → isSpaceCode c = false) :
    pyStrip s = s := by
  unfold pyStrip
  rw [dropWhile_eq_self_of_head _ _ h1]
  rw [dropWhile_eq_self_of_head _ s.reverse (by
    intro c hc
    rw [List.head?_reverse] at hc
    exact h2 c hc)]
  exact List.reverse_reverse s

theorem map_toLowerCode_idem (d : Str) :
    (d.map toLowerCode).map toLowerCode = d.map toLowerCode := by
  induction d with
  | nil => rfl
  | cons a t ih =>
      simp only [List.map_cons]
      rw [toLowerCode_idem, ih]

theorem at_not_mem_map_toLowerCode (d : Str) (h : atCode ∉ d) :
    atCode ∉ d.map toLowerCode := by
  intro hm
  obtain ⟨c, hc, he⟩ := List.mem_map.mp hm
  exact h (toLowerCode_eq_at c he ▸ hc)

theorem getLast?_cons_of_ne_nil (a : Nat) (l : Str) (h : l ≠ []) :
    (a :: l).getLast? = l.getLast? := by
  cases l with
  | nil => exact absurd rfl h
  | cons b u => rw [List.getLast?_cons_cons]

theorem getLast?_map_not_space (d : Str) (c : Nat)
    (hd : ∀ x, d.getLast? = some x → isSpaceCode x = false)
    (h : (d.map toLowerCode).getLast? = some c) : isSpaceCode c = false := by
  rw [List.getLast?_map] at h
  cases hx : d.getLast? with
  | none => rw [hx] at h; cases h
  | some x =>
      rw [hx] at h
      simp only [Option.map_some', Option.some.injEq] at h
      subst h
      rw [toLowerCode_space]
      exact hd x hx

/-- Non-whitespace characters survive `str.strip()`. -/
theorem mem_dropWhile_of_not (p : Nat → Bool) (c : Nat) (l : Str)
    (hp : p c = false) (h : c ∈ l) : c ∈ l.dropWhile p := by
  induction l with
  | nil => cases h
  | cons a t ih =>
      rw [List.dropWhile]
      cases ha : p a with
      | true =>
          rcases List.mem_cons.mp h with h1 | h2
          · subst h1; rw [hp] at ha; cases ha
          · exact ih h2
      | false => exact h

theorem mem_pyStrip (c : Nat) (s : Str) (hp : isSpaceCode c = false)
    (h : c ∈ s) : c ∈ pyStrip s := by
  unfold pyStrip
  rw [List.mem_reverse]
  apply mem_dropWhile_of_not _ _ _ hp
  rw [List.mem_reverse]
  exact mem_dropWhile_of_not _ _ _ hp h

/-- Django email normalization is idempotent. -/
theorem normalize_email_idem (e : Str) :
    normalize_email (normalize_email e) = normalize_email e := by
  cases h : rsplitLast atCode (pyStrip e) with
  | none =>
      have he : normalize_email e = e := by
        unfold normalize_email
        rw [h]
      rw [he]
      exact he
  | some nd =>
      obtain ⟨n, d⟩ := nd
      have he : normalize_email e = n ++ atCode :: d.map toLowerCode := by
        unfold normalize_email
        rw [h]
      have hrec : pyStrip e = n ++ atCode :: d := rsplitLast_eq _ _ _ _ h
      have hnotmem : atCode ∉ d.map toLowerCode :=
        at_not_mem_map_toLowerCode d (rsplitLast_sep_not_mem_snd _ _ _ _ h)
      have hat : isSpaceCode atCode = false := isSpaceCode_eq_false atCode (by unfold atCode; omega)
      have hhead : ∀ c, (n ++ atCode :: d.map toLowerCode).head? = some c →
          isSpaceCode c = false := by
        intro c hc
        cases n with
        | nil =>
            simp only [List.nil_append, List.head?_cons, Option.some.injEq] at hc
            subst hc
            exact hat
        | cons a t =>
            simp only [List.cons_append, List.head?_cons, Option.some.injEq] at hc
            subst hc
            apply pyStrip_head_not_space e
            rw [hrec]
            simp
      have hlast : ∀ c, (n ++ atCode :: d.map toLowerCode).getLast? = some c →
          isSpaceCode c = false := by
        intro c hc
        rw [List.getLast?_append_cons] at hc
        cases hd : d with
        | nil =>
            rw [hd] at hc
            simp only [List.map_nil, List.getLast?_singleton, Option.some.injEq] at hc
            subst hc
            exact hat
        | cons b u =>
            have hne : d.map toLowerCode ≠ [] := by
              rw [hd]; simp
            rw [getLast?_cons_of_ne_nil _ _ hne] at hc
            apply getLast?_map_not_space d c _ hc
            intro x hx
            apply pyStrip_getLast_not_space e
            rw [hrec, List.getLast?_append_cons,
                getLast?_cons_of_ne_nil _ _ (by rw [hd]; simp : d ≠ [])]
            exact hx
      have hstrip : pyStrip (n ++ atCode :: d.map toLowerCode) =
          n ++ atCode :: d.map toLowerCode := pyStrip_eq_self _ hhead hlast
      have hsplit : rsplitLast atCode (n ++ atCode :: d.map toLowerCode) =
          some (n, d.map toLowerCode) := rsplitLast_append _ _ _ hnotmem
      rw [he]
      unfold normalize_email
      rw [hstrip, hsplit]
      show n ++ atCode :: (d.map toLowerCode).map toLowerCode =
        n ++ atCode :: d.map toLowerCode
      rw [map_toLowerCode_idem]

/-- The part after the rightmost `@` of a normalized email that contains
an `@` has no uppercase ASCII letter. -/
theorem normalize_email_domain_lower (e n d : Str)
    (h : rsplitLast atCode (normalize_email e) = some (n, d)) :
    ∀ c ∈ d, isUpperCode c = false := by
  cases h0 : rsplitLast atCode (pyStrip e) with
  | none =>
      exfalso
      have he : normalize_email e = e := by
        unfold normalize_email
        rw [h0]
      rw [he] at h
      have hmem : atCode ∈ e := by
        rw [rsplitLast_eq _ _ _ _ h]
        simp
      have : atCode ∈ pyStrip e :=
        mem_pyStrip _ _ (isSpaceCode_eq_false atCode (by unfold atCode; omega)) hmem
      exact (rsplitLast_eq_none_iff _ _).mp h0 this
  | some nd =>
      obtain ⟨n0, d0⟩ := nd
      have he : normalize_email e = n0 ++ atCode :: d0.map toLowerCode := by
        unfold normalize_email
        rw [h0]
      have hnotmem : atCode ∉ d0.map toLowerCode :=
        at_not_mem_map_toLowerCode d0 (rsplitLast_sep_not_mem_snd _ _ _ _ h0)
      rw [he, rsplitLast_append _ _ _ hnotmem] at h
      simp only [Option.some.injEq, Prod.mk.injEq] at h
      obtain ⟨h1, h2⟩ := h
      subst h2
      intro c hc
      obtain ⟨x, _, hx⟩ := List.mem_map.mp hc
      rw [← hx]
      exact toLowerCode_not_upper x

/-- C8: Email normalization is idempotent — normalizing an
already-normalized email is a no-op — and the user persisted by
`UserManager.create_user` stores the email with the portion after the
rightmost `@` (the domain) free of uppercase ASCII letters. -/
theorem claim_C8_email_normalization :
    (∀ e : Str, normalize_email (normalize_email e) = normalize_email e) ∧
    (∀ (db : UserDb) (e p nm : Str) (u : User) (db2 : UserDb),
      create_user db e p nm = (Except.ok u, db2) →
      ∀ n d : Str, rsplitLast atCode u.email = some (n, d) →
      ∀ c ∈ d, isUpperCode c = false) := by
  constructor
  · exact normalize_email_idem
  · intro db e p nm u db2 hcall n d hsplit c hc
    by_cases he : e = []
    · rw [he] at hcall
      unfold create_user at hcall
      rw [if_pos rfl] at hcall
      simp at hcall
    · unfold create_user at hcall
      rw [if_neg he] at hcall
      simp only [Prod.mk.injEq, Except.ok.injEq] at hcall
      obtain ⟨h1, h2⟩ := hcall
      have hue : u.email = normalize_email e := by rw [← h1]
      rw [hue] at hsplit
      exact normalize_email_domain_lower e n d hsplit c hc

/-- Witness for C8: creating a user with email `t@XZ` stores domain `xz`,
which has no uppercase letter. -/
theorem claim_C8_email_normalization_witness :
    ∀ c ∈ ([120, 122] : Str), isUpperCode c = false :=
  claim_C8_email_normalization.2 ⟨[]⟩ [116, 64, 88, 90] [112] [110]
    { email := [116, 64, 120, 122]
      passwordHash := [104, 112]
      name := [110]
      is_active := true
      is_staff := false
      is_superuser := false }
    ⟨[{ email := [116, 64, 120, 122]
        passwordHash := [104, 112]
        name := [110]
        is_active := true
        is_staff := false
        is_superuser := false }]⟩
    rfl [116] [120, 122] rfl

/-- C5 counterexample: with an empty email, `create_user` raises Python's
built-in `ValueError`, not a framework `ValidationError`, so the claim as
stated fails at this input. -/
theorem claim_C5_counterexample :
    ¬ ∃ errs, (create_user ⟨[]⟩ [] [112] [110]).1 =
      Except.error (PyErr.validationError errs) := by
  intro ⟨errs, h⟩
  have : (create_user (⟨[]⟩ : UserDb) [] [112] [110]).1 =
      Except.error (PyErr.valueError emptyEmailMsg) := rfl
  rw [this] at h
  cases h

/-- C5 amended: for every password and extra fields, `create_user` with
an empty email fails with `ValueError` and leaves the user table
unchanged (no record persisted). -/
theorem claim_C5_empty_email (db : UserDb) (p nm : Str) :
    (create_user db [] p nm).1 =
      Except.error (PyErr.valueError emptyEmailMsg) ∧
    (create_user db [] p nm).2 = db := by
  unfold create_user
  rw [if_pos rfl]
  exact ⟨rfl, rfl⟩

-- Membership lemmas for the ordering and filtering combinators.

theorem mem_insertDescBy {α : Type} (f : α → Str) (x a : α) (l : List α) :
    a ∈ insertDescBy f x l ↔ a = x ∨ a ∈ l := by
  induction l with
  | nil => simp [insertDescBy]
  | cons y ys ih =>
      unfold insertDescBy
      by_cases hc : lexLt (f x) (f y)
      · rw [if_pos hc]
        simp only [List.mem_cons, ih]
        tauto
      · rw [if_neg hc]
        simp only [List.mem_cons]

theorem mem_sortDescBy {α : Type} (f : α → Str) (a : α) (l : List α) :
    a ∈ sortDescBy f l ↔ a ∈ l := by
  induction l with
  | nil => simp [sortDescBy]
  | cons x xs ih =>
      unfold sortDescBy
      rw [mem_insertDescBy, ih, List.mem_cons]

theorem mem_filterTagsIn (rs : List Recipe) (ids : List Int) (r : Recipe) :
    r ∈ filterTagsIn rs ids ↔ r ∈ rs ∧ ∃ t ∈ r.tags, t ∈ ids := by
  unfold filterTagsIn
  rw [List.mem_flatMap]
  constructor
  · rintro ⟨a, ha, hr⟩
    rw [List.mem_map] at hr
    obtain ⟨tid, htid, heq⟩ := hr
    subst heq
    rw [List.mem_filter] at htid
    exact ⟨ha, tid, htid.1, by simpa using htid.2⟩
  · rintro ⟨hr, t, ht, hid⟩
    exact ⟨r, hr, List.mem_map.mpr ⟨t, List.mem_filter.mpr ⟨ht, by simpa⟩, rfl⟩⟩

theorem mem_filterIngredientsIn (rs : List Recipe) (ids : List Int) (r : Recipe) :
    r ∈ filterIngredientsIn rs ids ↔ r ∈ rs ∧ ∃ i ∈ r.ingredients, i ∈ ids := by
  unfold filterIngredientsIn
  rw [List.mem_flatMap]
  constructor
  · rintro ⟨a, ha, hr⟩
    rw [List.mem_map] at hr
    obtain ⟨iid, hiid, heq⟩ := hr
    subst heq
    rw [List.mem_filter] at hiid
    exact ⟨ha, iid, hiid.1, by simpa using hiid.2⟩
  · rintro ⟨hr, i, hi, hid⟩
    exact ⟨r, hr, List.mem_map.mpr ⟨i, List.mem_filter.mpr ⟨hi, by simpa⟩, rfl⟩⟩

/-- Every row a successful recipe queryset returns belongs to the
requesting user: the final `.filter(user=self.request.user)` step. -/
theorem recipe_queryset_user (db : Db) (user : Nat) (tagsP ingP : Option Str)
    (rs : List Recipe)
    (h : RecipeViewSet_get_queryset db user tagsP ingP = Except.ok rs) :
    ∀ r ∈ rs, r.user = user := by
  unfold RecipeViewSet_get_queryset at h
  cases h1 : (if truthy tagsP then
      Except.map (filterTagsIn db.recipes) (_params_to_int (tagsP.getD []))
    else Except.ok db.recipes) with
  | error e => rw [h1] at h; cases h
  | ok q1 =>
      rw [h1] at h
      replace h : (match (if truthy ingP then
          Except.map (filterIngredientsIn q1) (_params_to_int (ingP.getD []))
        else Except.ok q1) with
        | Except.error e => Except.error e
        | Except.ok q2 =>
            Except.ok (List.filter (fun r => decide (r.user = user)) q2)) =
          Except.ok rs := h
      cases h2 : (if truthy ingP then
          Except.map (filterIngredientsIn q1) (_params_to_int (ingP.getD []))
        else Except.ok q1) with
      | error e => rw [h2] at h; cases h
      | ok q2 =>
          rw [h2] at h
          rw [Except.ok.injEq] at h
          subst h
          intro r hr
          rw [List.mem_filter] at hr
          simpa using hr.2

/-- Characterization of the recipe queryset when only the tags filter is
supplied and parses. -/
theorem recipe_queryset_tags_only (db : Db) (user : Nat) (tq : Str)
    (tids : List Int) (htq : tq ≠ [])
    (hpt : _params_to_int tq = Except.ok tids) :
    RecipeViewSet_get_queryset db user (some tq) none =
      Except.ok ((filterTagsIn db.recipes tids).filter
        (fun r => decide (r.user = user))) := by
  unfold RecipeViewSet_get_queryset
  have htr : truthy (some tq) = true := by
    unfold truthy
    simpa using htq
  rw [htr]
  simp only [if_true, Option.getD_some, hpt]
  rfl

/-- Characterization of the recipe queryset when both filters are
supplied and parse. -/
theorem recipe_queryset_both (db : Db) (user : Nat) (tq iq : Str)
    (tids iids : List Int) (htq : tq ≠ []) (hiq : iq ≠ [])
    (hpt : _params_to_int tq = Except.ok tids)
    (hpi : _params_to_int iq = Except.ok iids) :
    RecipeViewSet_get_queryset db user (some tq) (some iq) =
      Except.ok ((filterIngredientsIn (filterTagsIn db.recipes tids) iids).filter
        (fun r => decide (r.user = user))) := by
  unfold RecipeViewSet_get_queryset
  have htr : truthy (some tq) = true := by
    unfold truthy
    simpa using htq
  have hir : truthy (some iq) = true := by
    unfold truthy
    simpa using hiq
  rw [htr, hir]
  simp only [if_true, Option.getD_some, hpt, hpi]
  rfl

/-- C1: every record a tag, ingredient, or recipe list request returns
for authenticated user A is owned by A, and for any distinct user B no
record of B appears, whatever filter parameters are supplied. -/
theorem claim_C1_owner_scoped_listing (db : Db) (A B : Nat) (hAB : A ≠ B)
    (ao1 ao2 tagsP ingP : Option Str) :
    (∀ t ∈ tag_get_queryset db A ao1, t.user = A ∧ t.user ≠ B) ∧
    (∀ i ∈ ingredient_get_queryset db A ao2, i.user = A ∧ i.user ≠ B) ∧
    (∀ rs, RecipeViewSet_get_queryset db A tagsP ingP = Except.ok rs →
      ∀ r ∈ rs, r.user = A ∧ r.user ≠ B) := by
  refine ⟨?_, ?_, ?_⟩
  · intro t ht
    unfold tag_get_queryset at ht
    rw [mem_sortDescBy, List.mem_filter] at ht
    have h := of_decide_eq_true ht.2
    exact ⟨h, by rw [h]; exact hAB⟩
  · intro i hi
    unfold ingredient_get_queryset at hi
    rw [mem_sortDescBy, List.mem_filter] at hi
    have h := of_decide_eq_true hi.2
    exact ⟨h, by rw [h]; exact hAB⟩
  · intro rs hrs r hr
    have h := recipe_queryset_user db A tagsP ingP rs hrs r hr
    exact ⟨h, by rw [h]; exact hAB⟩

/-- Witness for C1: the tag returned by the fixture listing for user 1
is owned by user 1 and not by user 2. -/
theorem claim_C1_owner_scoped_listing_witness :
    tag1C2.user = 1 ∧ tag1C2.user ≠ 2 :=
  (claim_C1_owner_scoped_listing dbC2 1 2 (by decide) (some [49]) none none
    none).1 tag1C2 (by decide)

/-- C2 (code bug): the tag queryset ignores `assigned_only`.  At the
failing input — tag 1 assigned to the only recipe, tag 2 assigned to no
recipe, request carrying `assigned_only=1` — the unassigned tag 2 is
still returned, and the response equals the one without the flag. -/
theorem claim_C2_assigned_only_ignored :
    tag_get_queryset dbC2 1 (some [49]) = [tag2C2, tag1C2] ∧
    tag2C2 ∈ tag_get_queryset dbC2 1 (some [49]) ∧
    tag_get_queryset dbC2 1 (some [49]) = tag_get_queryset dbC2 1 none ∧
    (∀ r ∈ dbC2.recipes, tag2C2.id ∉ r.tags) := by decide

/-- C3 counterexample: recipe 1 carries both listed tags and the filtered
listing returns it twice, so "each matching recipe appearing once" fails
at this input. -/
theorem claim_C3_counterexample :
    RecipeViewSet_get_queryset dbC3 1 (some [49, 44, 50]) none =
      Except.ok [recipeC3, recipeC3] ∧
    [recipeC3, recipeC3].count recipeC3 ≠ 1 :=
  ⟨rfl, by decide⟩

/-- C3 amended: with a tags filter the caller's recipes associated with
at least one listed tag are exactly the members of the result (set-wise
the union over the listed ids, recipes with none of the tags excluded),
and adding an ingredients filter restricts membership to the set-wise
intersection of the two filtered sets; however a recipe associated with
several listed ids appears once per matching association, not once. -/
theorem claim_C3_tags_filter_union (db : Db) (user : Nat) (tq iq : Str)
    (tids iids : List Int) (htq : tq ≠ []) (hiq : iq ≠ [])
    (hpt : _params_to_int tq = Except.ok tids)
    (hpi : _params_to_int iq = Except.ok iids) :
    (∃ rs, RecipeViewSet_get_queryset db user (some tq) none = Except.ok rs ∧
      ∀ r, (r ∈ rs ↔ r ∈ db.recipes ∧ r.user = user ∧ ∃ t ∈ r.tags, t ∈ tids)) ∧
    (∃ rs, RecipeViewSet_get_queryset db user (some tq) (some iq) = Except.ok rs ∧
      ∀ r, (r ∈ rs ↔ r ∈ db.recipes ∧ r.user = user ∧
        (∃ t ∈ r.tags, t ∈ tids) ∧ (∃ i ∈ r.ingredients, i ∈ iids))) := by
  constructor
  · refine ⟨_, recipe_queryset_tags_only db user tq tids htq hpt, ?_⟩
    intro r
    simp only [List.mem_filter, mem_filterTagsIn, decide_eq_true_eq]
    tauto
  · refine ⟨_, recipe_queryset_both db user tq iq tids iids htq hiq hpt hpi, ?_⟩
    intro r
    simp only [List.mem_filter, mem_filterIngredientsIn, mem_filterTagsIn,
      decide_eq_true_eq]
    tauto

/-- Witness for C3 at the fixture database, with filters `tags=1,2` and
`ingredients=1`. -/
theorem claim_C3_tags_filter_union_witness :
    (∃ rs, RecipeViewSet_get_queryset dbC3 1 (some [49, 44, 50]) none =
        Except.ok rs ∧
      ∀ r, (r ∈ rs ↔ r ∈ dbC3.recipes ∧ r.user = 1 ∧
        ∃ t ∈ r.tags, t ∈ ([1, 2] : List Int))) ∧
    (∃ rs, RecipeViewSet_get_queryset dbC3 1 (some [49, 44, 50]) (some [49]) =
        Except.ok rs ∧
      ∀ r, (r ∈ rs ↔ r ∈ dbC3.recipes ∧ r.user = 1 ∧
        (∃ t ∈ r.tags, t ∈ ([1, 2] : List Int)) ∧
        (∃ i ∈ r.ingredients, i ∈ ([1] : List Int)))) :=
  claim_C3_tags_filter_union dbC3 1 [49, 44, 50] [49] [1, 2] [1]
    (by decide) (by decide) rfl rfl

/-- C9 counterexample: a recipe list request with the malformed filter
`tags=abc` does not produce a field-level 400 validation error; the
`ValueError` raised by `int()` escapes and the response is a 500 server
error. -/
theorem claim_C9_counterexample :
    RecipeViewSet_get_queryset { tags := [], ingredients := [], recipes := [] } 1
      (some [97, 98, 99]) none =
      Except.error (PyErr.valueError invalidLiteralMsg) ∧
    recipe_list { tags := [], ingredients := [], recipes := [] } 1
      (some [97, 98, 99]) none = { status := 500, body := [] } ∧
    (500 : Nat) ≠ 400 :=
  ⟨rfl, rfl, by decide⟩

/-- C9 amended: a malformed (non-numeric) identifier in the tags or in
the ingredients filter makes `_params_to_int` raise `ValueError`; the
exception escapes `get_queryset` uncaught, so the request fails as a 500
server error, not a 400 validation response.  The three conjuncts cover
a malformed tags parameter (any ingredients parameter), a malformed
ingredients parameter with tags absent, and a malformed ingredients
parameter with a well-formed tags parameter. -/
theorem claim_C9_malformed_id_server_error (db : Db) (user : Nat)
    (tqBad tqOk iqBad : Str) (iq : Option Str) (tids : List Int) (mt mi : Str)
    (htb : tqBad ≠ []) (hto : tqOk ≠ []) (hib : iqBad ≠ [])
    (hbadT : _params_to_int tqBad = Except.error (PyErr.valueError mt))
    (hokT : _params_to_int tqOk = Except.ok tids)
    (hbadI : _params_to_int iqBad = Except.error (PyErr.valueError mi)) :
    (RecipeViewSet_get_queryset db user (some tqBad) iq =
        Except.error (PyErr.valueError mt) ∧
      (recipe_list db user (some tqBad) iq).status = 500) ∧
    (RecipeViewSet_get_queryset db user none (some iqBad) =
        Except.error (PyErr.valueError mi) ∧
      (recipe_list db user none (some iqBad)).status = 500) ∧
    (RecipeViewSet_get_queryset db user (some tqOk) (some iqBad) =
        Except.error (PyErr.valueError mi) ∧
      (recipe_list db user (some tqOk) (some iqBad)).status = 500) := by
  have htrB : truthy (some tqBad) = true := by
    unfold truthy
    simpa using htb
  have htrO : truthy (some tqOk) = true := by
    unfold truthy
    simpa using hto
  have hirB : truthy (some iqBad) = true := by
    unfold truthy
    simpa using hib
  have hq1 : RecipeViewSet_get_queryset db user (some tqBad) iq =
      Except.error (PyErr.valueError mt) := by
    unfold RecipeViewSet_get_queryset
    rw [htrB]
    simp only [if_true, Option.getD_some, hbadT]
    rfl
  have hq2 : RecipeViewSet_get_queryset db user none (some iqBad) =
      Except.error (PyErr.valueError mi) := by
    unfold RecipeViewSet_get_queryset
    rw [hirB]
    simp only [if_true, Option.getD_some, hbadI]
    rfl
  have hq3 : RecipeViewSet_get_queryset db user (some tqOk) (some iqBad) =
      Except.error (PyErr.valueError mi) := by
    unfold RecipeViewSet_get_queryset
    rw [htrO, hirB]
    simp only [if_true, Option.getD_some, hokT, hbadI]
    rfl
  refine ⟨⟨hq1, ?_⟩, ⟨hq2, ?_⟩, ⟨hq3, ?_⟩⟩
  · unfold recipe_list
    rw [hq1]
  · unfold recipe_list
    rw [hq2]
  · unfold recipe_list
    rw [hq3]

/-- Witness for C9 at the malformed literal `xy`, with the well-formed
tags parameter `1`, exercising all three positions of a malformed
identifier. -/
theorem claim_C9_malformed_id_server_error_witness :
    (RecipeViewSet_get_queryset { tags := [], ingredients := [], recipes := [] } 2
        (some [97, 98, 99]) none =
        Except.error (PyErr.valueError invalidLiteralMsg) ∧
      (recipe_list { tags := [], ingredients := [], recipes := [] } 2
        (some [97, 98, 99]) none).status = 500) ∧
    (RecipeViewSet_get_queryset { tags := [], ingredients := [], recipes := [] } 2
        none (some [120, 121]) =
        Except.error (PyErr.valueError invalidLiteralMsg) ∧
      (recipe_list { tags := [], ingredients := [], recipes := [] } 2
        none (some [120, 121])).status = 500) ∧
    (RecipeViewSet_get_queryset { tags := [], ingredients := [], recipes := [] } 2
        (some [49]) (some [120, 121]) =
        Except.error (PyErr.valueError invalidLiteralMsg) ∧
      (recipe_list { tags := [], ingredients := [], recipes := [] } 2
        (some [49]) (some [120, 121])).status = 500) :=
  claim_C9_malformed_id_server_error { tags := [], ingredients := [], recipes := [] }
    2 [97, 98, 99] [49] [120, 121] none [1] invalidLiteralMsg invalidLiteralMsg
    (by decide) (by decide) (by decide) rfl rfl rfl

/-- C4: a full update (PUT) whose payload omits the tags and ingredients
fields leaves the recipe with empty associations afterwards, while a
partial update (PATCH) omitting them leaves the existing associations
unchanged. -/
theorem claim_C4_full_update_clears_m2m (r : Recipe) (p : RecipePayload)
    (ht : p.tags = none) (hi : p.ingredients = none) :
    (∀ r2, recipe_update_full r p = Except.ok r2 →
      r2.tags = [] ∧ r2.ingredients = []) ∧
    (recipe_update_patch r p).tags = r.tags ∧
    (recipe_update_patch r p).ingredients = r.ingredients := by
  refine ⟨?_, ?_, ?_⟩
  · intro r2 h2
    unfold recipe_update_full at h2
    split at h2
    · rw [Except.ok.injEq] at h2
      subst h2
      refine ⟨?_, ?_⟩
      · show p.tags.getD [] = []
        rw [ht]
        rfl
      · show p.ingredients.getD [] = []
        rw [hi]
        rfl
    · cases h2
  · show p.tags.getD r.tags = r.tags
    rw [ht]
    rfl
  · show p.ingredients.getD r.ingredients = r.ingredients
    rw [hi]
    rfl

/-- Witness for C4 at a concrete payload carrying title, duration and
price but omitting both associations. -/
theorem claim_C4_full_update_clears_m2m_witness :
    (∀ r2, recipe_update_full recipeC3
        { title := some [116], time_minutes := some 1, price := some 100,
          link := none, tags := none, ingredients := none } = Except.ok r2 →
      r2.tags = [] ∧ r2.ingredients = []) ∧
    (recipe_update_patch recipeC3
        { title := some [116], time_minutes := some 1, price := some 100,
          link := none, tags := none, ingredients := none }).tags =
      recipeC3.tags ∧
    (recipe_update_patch recipeC3
        { title := some [116], time_minutes := some 1, price := some 100,
          link := none, tags := none, ingredients := none }).ingredients =
      recipeC3.ingredients :=
  claim_C4_full_update_clears_m2m recipeC3
    { title := some [116], time_minutes := some 1, price := some 100,
      link := none, tags := none, ingredients := none } rfl rfl

/-- C6: for a recipe resolved through the caller's queryset, uploading a
payload that is not a decodable image answers 400 and leaves the
database — hence the recipe's stored image — unchanged, while a
decodable image answers 200 with the updated representation. -/
theorem claim_C6_upload_image_validation (db : Db) (user : Nat) (pk : Int)
    (recipe : Recipe) (uuid d ext dat : Str)
    (hfind : db.recipes.find? (fun r => decide (r.id = pk ∧ r.user = user)) =
      some recipe) :
    upload_image db user pk (UploadPayload.nonImage d) uuid =
      ({ status := 400, body := none }, db) ∧
    (upload_image db user pk (UploadPayload.imageFile ext dat) uuid).1.status =
      200 ∧
    (upload_image db user pk (UploadPayload.imageFile ext dat) uuid).1.body =
      some { recipe with image := some (get_recipe_image_file_path uuid ext) } := by
  unfold upload_image
  rw [hfind]
  exact ⟨rfl, rfl, rfl⟩

/-- Witness for C6 at the fixture recipe, with a one-character uuid and a
`.j` extension. -/
theorem claim_C6_upload_image_validation_witness :
    upload_image dbC3 1 1 (UploadPayload.nonImage [122]) [117] =
      ({ status := 400, body := none }, dbC3) ∧
    (upload_image dbC3 1 1 (UploadPayload.imageFile [46, 106] [122]) [117]).1.status =
      200 ∧
    (upload_image dbC3 1 1 (UploadPayload.imageFile [46, 106] [122]) [117]).1.body =
      some { recipeC3 with image := some (get_recipe_image_file_path [117] [46, 106]) } :=
  claim_C6_upload_image_validation dbC3 1 1 recipeC3 [117] [122] [46, 106] [122] rfl

/-- C7 counterexample: with the fixture user, a wrong password produces
the fixed non-field authentication error while a blank password produces
a field-level blank error, so the two failing responses are
distinguishable and the claim as stated fails. -/
theorem claim_C7_counterexample :
    issue_token dbC7 [97, 64, 120] [119, 119] ≠
      issue_token dbC7 [97, 64, 120] [] := by
  intro h
  have h1 : issue_token dbC7 [97, 64, 120] [119, 119] =
      Except.error [(nonFieldErrors, authFailMsg)] := rfl
  have h2 : issue_token dbC7 [97, 64, 120] [] =
      Except.error [(passwordField, blankMsg)] := rfl
  rw [h1, h2, Except.error.injEq] at h
  exact absurd h (by decide)

/-- C7 amended: whenever both submitted fields are non-blank, every
failing `issue_token` run — wrong password or unknown email alike —
produces the identical fixed non-field authentication error; a blank
password instead fails field validation with a distinct blank error (see
the counterexample). -/
theorem claim_C7_uniform_auth_error (db db2 : UserDb) (e1 p1 e2 p2 : Str)
    (h1e : e1 ≠ []) (h1p : p1 ≠ []) (h2e : e2 ≠ []) (h2p : p2 ≠ [])
    (f1 : authenticate db e1 p1 = none) (f2 : authenticate db2 e2 p2 = none) :
    issue_token db e1 p1 = Except.error [(nonFieldErrors, authFailMsg)] ∧
    issue_token db e1 p1 = issue_token db2 e2 p2 := by
  have g : ∀ (d : UserDb) (e p : Str), e ≠ [] → p ≠ [] →
      authenticate d e p = none →
      issue_token d e p = Except.error [(nonFieldErrors, authFailMsg)] := by
    intro d e p he hp hf
    unfold issue_token
    simp only [if_neg he, if_neg hp, List.nil_append, ne_eq,
      not_true_eq_false, if_false, hf]
  exact ⟨g db e1 p1 h1e h1p f1,
    by rw [g db e1 p1 h1e h1p f1, g db2 e2 p2 h2e h2p f2]⟩

/-- Witness for C7: a wrong password for the registered fixture email and
a correct password for an unknown email fail with the same error. -/
theorem claim_C7_uniform_auth_error_witness :
    issue_token dbC7 [97, 64, 120] [119, 119] =
      Except.error [(nonFieldErrors, authFailMsg)] ∧
    issue_token dbC7 [97, 64, 120] [119, 119] =
      issue_token dbC7 [98, 64, 120] [112, 119] :=
  claim_C7_uniform_auth_error dbC7 dbC7 [97, 64, 120] [119, 119]
    [98, 64, 120] [112, 119] (by decide) (by decide) (by decide) (by decide)
    rfl rfl

/-- C10: the public create-user endpoint rejects any password shorter
than the serializer's `min_length` of 8 with a 400 response, and no user
record is created (the table is returned unchanged). -/
theorem claim_C10_password_min_length (db : UserDb) (email password name : Str)
    (h : password.length < password_min_length) :
    user_create_api db email password name =
      ({ status := 400, body := none }, db) := by
  unfold user_create_api
  have hv : UserSerializer_is_valid db email password name = false := by
    unfold UserSerializer_is_valid
    have hd : decide (password_min_length ≤ password.length) = false := by
      rw [decide_eq_false_iff_not]
      omega
    rw [hd]
    simp
  rw [hv]
  simp

/-- Witness for C10: the two-character password `pw` is rejected and the
empty user table stays empty. -/
theorem claim_C10_password_min_length_witness :
    user_create_api ⟨[]⟩ [97, 64, 120] [112, 119] [110] =
      ({ status := 400, body := none }, (⟨[]⟩ : UserDb)) :=
  claim_C10_password_min_length ⟨[]⟩ [97, 64, 120] [112, 119] [110] (by decide)
